import Mathlib

/-!
Verification of the py-sync repository (src/sync.py): a shallow embedding of
the sync decision engine over `List Char` strings and an explicit local
filesystem model, with theorems settling the specification claims.

Python strings are modelled as `List Char`, file contents as `List Nat`
(byte values), and the local filesystem as a partial map from paths to
contents.  Subprocess calls to the `lftp` transfer client are modelled by an
environment function from issued commands to exit-code/stdout/stderr
results; the two remote downloads an event can trigger are modelled by their
observable outcome (the artifact's bytes when the transfer produced one).
-/

set_option maxRecDepth 4000

namespace Sync

abbrev PyStr := List Char

abbrev Bytes := List Nat

/-- The local filesystem: a partial map from absolute paths to file bytes. -/
abbrev FS := PyStr → Option Bytes

/-- String literal helper. -/
def strL (s : String) : PyStr := s.toList

/-- Python `str.strip` whitespace set (ASCII part). -/
def isPySpace (c : Char) : Bool :=
  c == ' ' || c == '\t' || c == '\n' || c == '\r' || c == '\x0b' || c == '\x0c'

/-- Python `str.strip()`. -/
def pyStrip (s : PyStr) : PyStr :=
  ((s.dropWhile isPySpace).reverse.dropWhile isPySpace).reverse

/-- Python `str.rstrip(c)` for a single character. -/
def rstripChar (c : Char) (s : PyStr) : PyStr :=
  (s.reverse.dropWhile fun x => x == c).reverse

/-- Python `str.startswith`, as an executable Bool check. -/
def isPrefBool : PyStr → PyStr → Bool
  | [], _ => true
  | _ :: _, [] => false
  | c :: cs, x :: xs => c == x && isPrefBool cs xs

/-- Python `needle in hay` substring containment, as an executable Bool check. -/
def containsBool (hay needle : PyStr) : Bool :=
  hay.tails.any fun t => isPrefBool needle t

/-- Python `str.split(sep)` (single-character separator, no collapsing). -/
def pySplitAux (sep : Char) : PyStr → PyStr → List PyStr
  | [], acc => [acc.reverse]
  | c :: cs, acc =>
    if c == sep then acc.reverse :: pySplitAux sep cs []
    else pySplitAux sep cs (c :: acc)

def pySplit (sep : Char) (s : PyStr) : List PyStr := pySplitAux sep s []

/-- Python `str.rfind(c)`: index of the last occurrence, `-1` when absent. -/
def pyRfind (c : Char) : PyStr → Int
  | [] => -1
  | x :: xs =>
    let r := pyRfind c xs
    if 0 ≤ r then r + 1
    else if x == c then 0 else -1

/-- posixpath `basename`: everything after the last slash. -/
def basename (p : PyStr) : PyStr :=
  p.drop ((pyRfind '/' p) + 1).toNat

/-- posixpath `dirname`: everything up to the last slash, trailing slashes
stripped unless the head is all slashes. -/
def dirname (p : PyStr) : PyStr :=
  let i := pyRfind '/' p + 1
  let head := p.take i.toNat
  if head ≠ [] ∧ ¬ (head.all fun c => c == '/') then rstripChar '/' head else head

/-- posixpath `join` for two components. -/
def pyJoin (a b : PyStr) : PyStr :=
  if b.head? == some '/' then b
  else if a.isEmpty then b
  else if a.getLast? == some '/' then a ++ b
  else a ++ '/' :: b

/-- posixpath `isabs`. -/
def py_isabs (p : PyStr) : Bool := p.head? == some '/'

/-- `os.sep` on the posix platform the tool targets. -/
def osSep : Char := '/'

/-- `rel_path.replace(os.sep, '/')` from `is_ignored`. -/
def normSep (p : PyStr) : PyStr := p.map fun c => if c == osSep then '/' else c

/-- posixpath `splitext`: split at the last dot of the final component,
unless every character between the last slash and that dot is itself a dot
(leading-dot filenames keep their dots). -/
def splitext (p : PyStr) : PyStr × PyStr :=
  if pyRfind '/' p < pyRfind '.' p then
    if (List.range p.length).any fun i =>
        decide (pyRfind '/' p < (i : Int)) && decide ((i : Int) < pyRfind '.' p)
          && (p.get? i != some '.') then
      (p.take (pyRfind '.' p).toNat, p.drop (pyRfind '.' p).toNat)
    else (p, [])
  else (p, [])

/-! ### Shell-glob matching (stdlib `fnmatch.fnmatch` on posix) -/

/-- Match one character against the body of a `[...]` character class. -/
def matchClass : List Char → Char → Bool
  | a :: '-' :: b :: rest, c =>
    (decide (a ≤ c) && decide (c ≤ b)) || matchClass rest c
  | a :: rest, c => a == c || matchClass rest c
  | [], _ => false

/-- Scan for the `]` closing a character class, returning the body and rest. -/
def findClose : List Char → Option (List Char × List Char)
  | [] => none
  | ']' :: rest => some ([], rest)
  | c :: rest => (findClose rest).map fun pr => (c :: pr.1, pr.2)

/-- Parse the body of a `[...]` class (after the opening bracket): a leading
`!` negates, a `]` right after that is a literal member. -/
def splitClass (ps : List Char) : Option (Bool × List Char × List Char) :=
  match ps with
  | '!' :: rest =>
    (match rest with
     | ']' :: rest2 => (findClose rest2).map fun pr => (true, ']' :: pr.1, pr.2)
     | _ => (findClose rest).map fun pr => (true, pr.1, pr.2))
  | ']' :: rest2 => (findClose rest2).map fun pr => (false, ']' :: pr.1, pr.2)
  | _ => (findClose ps).map fun pr => (false, pr.1, pr.2)

inductive GlobTok
  | lit (c : Char)
  | anyOne
  | star
  | cls (neg : Bool) (spec : List Char)
deriving DecidableEq

/-- Tokenise a glob pattern; the fuel is the pattern length (each step
consumes at least one character). An unclosed `[` is a literal. -/
def parseGlobAux : Nat → List Char → List GlobTok
  | 0, _ => []
  | _, [] => []
  | fuel+1, '*' :: ps => .star :: parseGlobAux fuel ps
  | fuel+1, '?' :: ps => .anyOne :: parseGlobAux fuel ps
  | fuel+1, '[' :: ps =>
    (match splitClass ps with
     | some (neg, spec, rest) => .cls neg spec :: parseGlobAux fuel rest
     | none => .lit '[' :: parseGlobAux fuel ps)
  | fuel+1, c :: ps => .lit c :: parseGlobAux fuel ps

def parseGlob (pat : PyStr) : List GlobTok := parseGlobAux pat.length pat

/-- Match a token list against a string; `*` may absorb any suffix change. -/
def tokMatch : List GlobTok → List Char → Bool
  | [], s => s.isEmpty
  | .star :: ts, s => s.tails.any fun t => tokMatch ts t
  | .anyOne :: ts, s =>
    (match s with
     | _ :: cs => tokMatch ts cs
     | [] => false)
  | .lit c :: ts, s =>
    (match s with
     | x :: cs => c == x && tokMatch ts cs
     | [] => false)
  | .cls neg spec :: ts, s =>
    (match s with
     | x :: cs => (matchClass spec x != neg) && tokMatch ts cs
     | [] => false)

/-- stdlib `fnmatch.fnmatch(name, pat)` (posix `normcase` is the identity). -/
def fnmatch (nm pat : PyStr) : Bool := tokMatch (parseGlob pat) nm

/-! ### The sync program (src/sync.py, class FTPUploader) -/

/-- `FTPUploader.is_ignored` (sync.py lines 84-110): empty pattern list never
matches; per pattern (skipped when empty, then stripped): a trailing-slash
pattern is tried as a directory prefix of the slash-normalised relative path,
then shell-glob matching is tried against the normalised relative path and the
bare filename, then an absolute pattern is tried as a prefix of the absolute
path.  The loop returns at the first match; `patCheck` is one loop iteration
(lines 92-109). -/
def patCheck (pat0 rel_path_unified filename abs_path : PyStr) : Bool :=
  if pat0.isEmpty then false
  else
    (if (pyStrip pat0).getLast? == some '/' then
      (rel_path_unified == rstripChar '/' (pyStrip pat0)
        || isPrefBool (rstripChar '/' (pyStrip pat0) ++ ['/']) rel_path_unified)
     else false)
    || fnmatch rel_path_unified (pyStrip pat0) || fnmatch filename (pyStrip pat0)
    || (py_isabs (pyStrip pat0) && isPrefBool (pyStrip pat0) abs_path)

def is_ignored (patterns : List PyStr) (rel_path filename abs_path : PyStr) : Bool :=
  if patterns.isEmpty then false
  else patterns.any fun pat0 => patCheck pat0 (normSep rel_path) filename abs_path

/-- Exit status and captured text of one `lftp` subprocess run. -/
structure SubprocResult where
  returncode : Int
  stdout : PyStr
  stderr : PyStr
deriving DecidableEq

/-- The `lftp` command scripts the program issues, by their varying parts:
`ls` lists a remote directory, `get` fetches a remote file into a local
temp path, `put` uploads, `mkdirPut` is the retry script
(`mkdir -p; cd; put` with the same transfer). -/
inductive LftpCmd
  | ls (remote_path : PyStr)
  | get (remote_path filename temp_path : PyStr)
  | put (remote_path src_path : PyStr)
  | mkdirPut (remote_path src_path : PyStr)
deriving DecidableEq

/-- `FTPUploader.remote_file_exists` (lines 112-131), as a function of the
listing subprocess's result: true iff the exit status is zero and some line
of the stripped stdout contains the filename as a substring. -/
def remote_file_exists (r : SubprocResult) (filename : PyStr) : Bool :=
  if r.returncode == 0 then
    (pySplit '\n' (pyStrip r.stdout)).any fun line => containsBool line filename
  else false

/-- `FTPUploader.files_are_identical` (lines 133-140): byte equality of the
two files' full contents; any read failure (missing file) is caught and
reported as `false`. -/
def files_are_identical (fs : FS) (local_path remote_temp_path : PyStr) : Bool :=
  match fs local_path, fs remote_temp_path with
  | some a, some b => a == b
  | _, _ => false

/-- The Comparison Artifact marker substring. -/
def marker : PyStr := strL "_remote_temp"

/-- The artifact filename built by `download_remote_file` (lines 144-148):
`f"{name}_remote_temp{ext}"`. -/
def temp_filename (filename : PyStr) : PyStr :=
  (splitext filename).1 ++ marker ++ (splitext filename).2

/-- The artifact path: the artifact filename joined to the local file's
directory (line 148). -/
def temp_path (local_file_path filename : PyStr) : PyStr :=
  pyJoin (dirname local_file_path) (temp_filename filename)

/-- The saved-copy filename built by choice 4 of `resolve_conflict`
(lines 248-249): `f"{name}_remote{ext}"`. -/
def remote_copy_name (filename : PyStr) : PyStr :=
  (splitext filename).1 ++ strL "_remote" ++ (splitext filename).2

/-- The saved-copy path (lines 250-251). -/
def remote_copy_path (local_path filename : PyStr) : PyStr :=
  pyJoin (dirname local_path) (remote_copy_name filename)

/-- Modelled from the spec: §4.4 words the Save-Remote-Copy name as the
filename with a "-remote" suffix inserted before the extension.  This
definition follows that wording, to be compared with `remote_copy_name`
taken from the source. -/
def copy_name_hyphen_spec (filename : PyStr) : PyStr :=
  (splitext filename).1 ++ strL "-remote" ++ (splitext filename).2

/-- Write a file (the effect of a completed download). -/
def fsWrite (fs : FS) (p : PyStr) (content : Bytes) : FS :=
  fun q => if q = p then some content else fs q

/-- `os.unlink`. -/
def fsRemove (fs : FS) (p : PyStr) : FS :=
  fun q => if q = p then none else fs q

/-- `os.replace src dst`: one atomic rename; the destination takes the
source's bytes and the source entry disappears. -/
def fsRename (fs : FS) (src dst : PyStr) : FS :=
  fun q => if q = dst then fs src else if q = src then none else fs q

/-- The four conflict decisions returned by `resolve_conflict` as the
strings "upload" / "download" / "cancel" / "copy". -/
inductive Decision
  | upload
  | download
  | cancel
  | copy
deriving DecidableEq

/-- The `while True` prompt loop (lines 215-258): consume operator inputs
(stripped) until one of "1"/"2"/"3"/"4"; invalid input re-prompts.  `none`
models the operator never supplying a valid choice (the loop never exits). -/
def pickDecision : List PyStr → Option Decision
  | [] => none
  | c :: rest =>
    let ch := pyStrip c
    if ch = strL "1" then some .upload
    else if ch = strL "2" then some .download
    else if ch = strL "3" then some .cancel
    else if ch = strL "4" then some .copy
    else pickDecision rest

/-- `FTPUploader.resolve_conflict` (lines 206-258).  `dl` is the outcome of
the artifact fetch at line 211 (`some content` when the download produced
the Comparison Artifact at `temp_path`); `overrides` is
`self.session_overrides` as the list of recorded filenames.  Choice 1
records the filename and unlinks the artifact; choice 2 renames the
artifact over the local file (`os.replace`, line 235); choice 3 unlinks the
artifact; choice 4 renames the artifact to the `_remote`-suffixed copy
(line 254).  Each artifact action is guarded by the artifact existing. -/
def resolve_conflict (fs : FS) (overrides : List PyStr) (local_path filename : PyStr)
    (dl : Option Bytes) (choices : List PyStr) :
    Option (FS × List PyStr × Decision) :=
  let tmp := temp_path local_path filename
  let fs1 := match dl with
    | some content => fsWrite fs tmp content
    | none => fs
  match pickDecision choices with
  | none => none
  | some .upload =>
    some (if dl.isSome then fsRemove fs1 tmp else fs1, filename :: overrides, .upload)
  | some .download =>
    some (if dl.isSome then fsRename fs1 tmp local_path else fs1, overrides, .download)
  | some .cancel =>
    some (if dl.isSome then fsRemove fs1 tmp else fs1, overrides, .cancel)
  | some .copy =>
    some (if dl.isSome then fsRename fs1 tmp (remote_copy_path local_path filename) else fs1,
          overrides, .copy)

/-- The upload section of `on_modified` (lines 322-354): one direct `put`;
on a non-zero exit, exactly one retry with the directory-creation script;
returns (reported success, diagnostic stderr when reported as failure,
the subprocess invocations made, in order). -/
def uploadStep (exec : LftpCmd → SubprocResult) (remote_path src_path : PyStr) :
    Bool × Option PyStr × List LftpCmd :=
  if (exec (.put remote_path src_path)).returncode ≠ 0 then
    if (exec (.mkdirPut remote_path src_path)).returncode == 0 then
      (true, none, [.put remote_path src_path, .mkdirPut remote_path src_path])
    else
      (false, some (exec (.mkdirPut remote_path src_path)).stderr,
        [.put remote_path src_path, .mkdirPut remote_path src_path])
  else (true, none, [.put remote_path src_path])

/-- The handler's mutable state: the local filesystem and
`self.session_overrides`. -/
structure HandlerState where
  fs : FS
  overrides : List PyStr

/-- The externals one `on_modified` invocation consumes: the subprocess
environment, the outcomes of the (up to) two artifact downloads (the
line-293 comparison fetch and the line-211 fetch inside
`resolve_conflict`), and the operator's console inputs. -/
structure SyncEnv where
  exec : LftpCmd → SubprocResult
  fetch1 : Option Bytes
  fetch2 : Option Bytes
  choices : List PyStr

inductive StopReason
  | isDir
  | tempFile
  | ignored
  | identical
  | canceled
  | downloaded
deriving DecidableEq

inductive HandlerResult
  | skipped (r : StopReason)
  | uploaded (ok : Bool) (diag : Option PyStr)
deriving DecidableEq

/-- The line-266 self-noise filter: the event filename contains the
Comparison Artifact marker substring. -/
def marker_check (src_path : PyStr) : Bool :=
  containsBool (basename src_path) marker

/-- Modelled from the spec: the stdlib relative-path computation
(`os.path.relpath`, line 269) is not part of src; per §3 Path Mapping the
relative path of an event path under the local root is the path minus the
local-root prefix (leading separators dropped). -/
def rel_path_of (start p : PyStr) : PyStr :=
  if isPrefBool start p then (p.drop start.length).dropWhile (fun c => c == '/') else p

/-- The mapped remote directory (lines 270-274). -/
def remote_path_of (remote_dir rel_path : PyStr) : PyStr :=
  let rel_dir := dirname rel_path
  if rel_dir ≠ [] then (pyJoin remote_dir rel_dir).map (fun c => if c == '\\' then '/' else c)
  else rstripChar '/' remote_dir

/-- `FTPUploader.on_modified` (lines 260-354), as one synchronous step:
given the configuration, the handler state, the change event
(path, directory flag) and the environment, produce the new state, the
trace of `lftp` invocations, and the outcome.  `none` models the
operator never exiting the conflict prompt loop. -/
def on_modified (local_dir remote_dir : PyStr) (patterns : List PyStr)
    (check_conflicts : Bool) (st : HandlerState) (src_path : PyStr)
    (is_directory : Bool) (env : SyncEnv) :
    Option (HandlerState × List LftpCmd × HandlerResult) :=
  if is_directory then some (st, [], .skipped .isDir)
  else if marker_check src_path then some (st, [], .skipped .tempFile)
  else
    let filename := basename src_path
    let rel_path := rel_path_of local_dir src_path
    let remote_path := remote_path_of remote_dir rel_path
    if is_ignored patterns rel_path filename src_path then some (st, [], .skipped .ignored)
    else
      let finish := fun (fs : FS) (ov : List PyStr) (tr : List LftpCmd) =>
        let u := uploadStep env.exec remote_path src_path
        some (⟨fs, ov⟩, tr ++ u.2.2, HandlerResult.uploaded u.1 u.2.1)
      if check_conflicts then
        if filename ∈ st.overrides then
          finish st.fs st.overrides []
        else if remote_file_exists (env.exec (.ls remote_path)) filename then
          match env.fetch1 with
          | some content =>
            let tmp := temp_path src_path filename
            let fs1 := fsWrite st.fs tmp content
            let tr0 := [LftpCmd.ls remote_path, LftpCmd.get remote_path filename tmp]
            if files_are_identical fs1 src_path tmp then
              some (⟨fsRemove fs1 tmp, st.overrides⟩, tr0, .skipped .identical)
            else
              let fs2 := fsRemove fs1 tmp
              let tr1 := tr0 ++ [LftpCmd.get remote_path filename tmp]
              match resolve_conflict fs2 st.overrides src_path filename env.fetch2 env.choices with
              | none => none
              | some (fs3, ov3, .cancel) => some (⟨fs3, ov3⟩, tr1, .skipped .canceled)
              | some (fs3, ov3, .download) => some (⟨fs3, ov3⟩, tr1, .skipped .downloaded)
              | some (fs3, ov3, .copy) => finish fs3 ov3 tr1
              | some (fs3, ov3, .upload) => finish fs3 ov3 tr1
          | none =>
            finish st.fs st.overrides
              [LftpCmd.ls remote_path, LftpCmd.get remote_path filename (temp_path src_path filename)]
        else finish st.fs st.overrides [LftpCmd.ls remote_path]
      else finish st.fs st.overrides []

/-- A command that transfers local content to the remote side. -/
def isTransfer : LftpCmd → Bool
  | .put _ _ => true
  | .mkdirPut _ _ => true
  | _ => false

/-- A command that probes or fetches from the remote side. -/
def isProbe : LftpCmd → Bool
  | .ls _ => true
  | .get _ _ _ => true
  | _ => false

def isUploadResult : HandlerResult → Bool
  | .uploaded _ _ => true
  | _ => false

/-! ### Bridging lemmas for the executable string checks -/

theorem isPrefBool_iff : ∀ p s : PyStr, isPrefBool p s = true ↔ p <+: s
  | [], s => by simp [isPrefBool, List.nil_prefix]
  | c :: cs, [] => by simp [isPrefBool]
  | c :: cs, x :: xs => by
    rw [isPrefBool, List.cons_prefix_cons, Bool.and_eq_true, beq_iff_eq,
      isPrefBool_iff cs xs]

theorem sub_of_pref {m l : PyStr} (h : m <+: l) : m <:+: l := by
  obtain ⟨t, ht⟩ := h
  exact ⟨[], t, by simpa using ht⟩

theorem sub_of_suff {m l : PyStr} (h : m <:+ l) : m <:+: l := by
  obtain ⟨s, hs⟩ := h
  exact ⟨s, [], by simpa using hs⟩

theorem containsBool_iff (hay needle : PyStr) :
    containsBool hay needle = true ↔ needle <:+: hay := by
  unfold containsBool
  rw [List.any_eq_true]
  constructor
  · rintro ⟨t, ht, hp⟩
    rw [List.mem_tails] at ht
    exact (sub_of_pref ((isPrefBool_iff needle t).mp hp)).trans (sub_of_suff ht)
  · rintro ⟨s, t, hst⟩
    refine ⟨needle ++ t, ?_, ?_⟩
    · rw [List.mem_tails]
      exact ⟨s, by simpa [List.append_assoc] using hst⟩
    · exact (isPrefBool_iff _ _).mpr ⟨t, rfl⟩

/-! ### Lemmas about `pyRfind`, `basename`, `pyJoin`, `splitext` -/

theorem pyRfind_ge (c : Char) : ∀ p : PyStr, -1 ≤ pyRfind c p
  | [] => by simp [pyRfind]
  | x :: xs => by
    have h := pyRfind_ge c xs
    simp only [pyRfind]
    split_ifs <;> omega

theorem pyRfind_get (c : Char) : ∀ p : PyStr, 0 ≤ pyRfind c p →
    p.get? (pyRfind c p).toNat = some c
  | [] => by simp [pyRfind]
  | x :: xs => by
    simp only [pyRfind]
    split_ifs with h1 h2
    · intro _
      have ht : (pyRfind c xs + 1).toNat = (pyRfind c xs).toNat + 1 := by omega
      rw [ht]
      simpa using pyRfind_get c xs h1
    · intro _
      simpa using beq_iff_eq.mp h2
    · intro h
      omega

theorem pyRfind_eq_neg_one (c : Char) : ∀ p : PyStr, c ∉ p → pyRfind c p = -1
  | [] => by simp [pyRfind]
  | x :: xs => by
    intro h
    rw [List.mem_cons, not_or] at h
    simp only [pyRfind, pyRfind_eq_neg_one c xs h.2]
    have : (x == c) = false := by
      simp only [beq_eq_false_iff_ne, ne_eq]
      exact fun hxc => h.1 hxc.symm
    simp [this]

theorem pyRfind_lt (c : Char) : ∀ (p : PyStr) (i : Nat), pyRfind c p < (i : Int) →
    p.get? i ≠ some c
  | [], i => by simp
  | x :: xs, i => by
    simp only [pyRfind]
    split_ifs with h1 h2
    · intro h
      match i with
      | 0 => omega
      | j + 1 =>
        simpa using pyRfind_lt c xs j (by push_cast at h ⊢; omega)
    · intro h
      match i with
      | 0 => omega
      | j + 1 =>
        simpa using pyRfind_lt c xs j (by push_cast; omega)
    · intro h
      match i with
      | 0 =>
        simp only [List.get?]
        intro hx
        injection hx with hx
        rw [hx] at h2
        simp at h2
      | j + 1 =>
        simpa using pyRfind_lt c xs j (by push_cast; omega)

theorem pyRfind_append_not_mem (c : Char) {b : PyStr} (hb : c ∉ b) :
    ∀ a : PyStr, pyRfind c (a ++ b) = pyRfind c a
  | [] => by simpa [pyRfind] using pyRfind_eq_neg_one c b hb
  | x :: a' => by
    simp only [List.cons_append, pyRfind, List.append_eq,
      pyRfind_append_not_mem c hb a']

theorem pyRfind_append_cons (c : Char) {b : PyStr} (hb : c ∉ b) :
    ∀ a : PyStr, pyRfind c (a ++ c :: b) = (a.length : Int)
  | [] => by
    have h := pyRfind_eq_neg_one c b hb
    simp [pyRfind, h]
  | x :: a' => by
    have ih := pyRfind_append_cons c hb a'
    have h0 : (0 : Int) ≤ (a'.length : Int) := by positivity
    simp only [List.cons_append, pyRfind, List.append_eq, ih, if_pos h0,
      List.length_cons]
    push_cast
    ring

theorem getLast?_concat {a : PyStr} {c : Char} (h : a.getLast? = some c) :
    ∃ a', a = a' ++ [c] := by
  induction a with
  | nil => simp at h
  | cons x t ih =>
    match t, ih with
    | [], _ =>
      simp only [List.getLast?_singleton, Option.some.injEq] at h
      exact ⟨[], by simp [h]⟩
    | y :: t', ih =>
      rw [List.getLast?_cons_cons] at h
      obtain ⟨a', ha⟩ := ih h
      exact ⟨x :: a', by simp [ha]⟩

theorem basename_pyJoin {g : PyStr} (hg : '/' ∉ g) (hne : g ≠ []) (a : PyStr) :
    basename (pyJoin a g) = g := by
  obtain ⟨gc, g', rfl⟩ := List.exists_cons_of_ne_nil hne
  have hgc : gc ≠ '/' := fun h => hg (by simp [h])
  have hhead : ((gc :: g').head? == some '/') = false := by
    simp [hgc]
  unfold pyJoin
  rw [hhead]
  simp only [Bool.false_eq_true, if_false]
  split_ifs with h1 h2
  · -- a is empty: join is g itself
    unfold basename
    rw [pyRfind_eq_neg_one '/' _ hg]
    simp
  · -- a ends in '/': join is a ++ g
    obtain ⟨a', rfl⟩ := getLast?_concat (beq_iff_eq.mp h2)
    unfold basename
    have hr : pyRfind '/' ((a' ++ ['/']) ++ gc :: g') = (a'.length : Int) := by
      rw [List.append_assoc, List.singleton_append]
      exact pyRfind_append_cons '/' hg a'
    rw [hr]
    have ht : ((a'.length : Int) + 1).toNat = a'.length + 1 := by omega
    rw [ht]
    have hlen : (a' ++ ['/']).length = a'.length + 1 := by simp
    rw [← hlen, List.drop_left]
  · -- general case: join is a ++ '/' :: g
    unfold basename
    rw [pyRfind_append_cons '/' hg a]
    have ht : ((a.length : Int) + 1).toNat = a.length + 1 := by omega
    rw [ht]
    have hsplit : a ++ '/' :: gc :: g' = (a ++ ['/']) ++ gc :: g' := by simp
    rw [hsplit]
    have hlen : (a ++ ['/']).length = a.length + 1 := by simp
    rw [← hlen, List.drop_left]

theorem slash_not_mem_basename (p : PyStr) : '/' ∉ basename p := by
  intro hmem
  obtain ⟨j, hj⟩ := List.mem_iff_get?.mp hmem
  unfold basename at hj
  rw [List.get?_drop] at hj
  have hge := pyRfind_ge '/' p
  refine pyRfind_lt '/' p ((pyRfind '/' p + 1).toNat + j) ?_ hj
  omega

theorem splitext_fst_append_snd (p : PyStr) : (splitext p).1 ++ (splitext p).2 = p := by
  unfold splitext
  split_ifs <;> simp [List.take_append_drop]

theorem splitext_snd_head (p : PyStr) :
    (splitext p).2 = [] ∨ (splitext p).2.head? = some '.' := by
  unfold splitext
  split_ifs with h1 h2
  · right
    have hge := pyRfind_ge '/' p
    have hd : 0 ≤ pyRfind '.' p := by omega
    have := pyRfind_get '.' p hd
    simp only
    rw [← List.get?_zero, List.get?_drop, Nat.add_zero]
    exact this
  · left; rfl
  · left; rfl

/-! ### Splitting an occurrence of a substring across an append -/

theorem prefix_append_split {m b : PyStr} : ∀ {a : PyStr}, m <+: a ++ b →
    m <+: a ∨ ∃ m2, m = a ++ m2 ∧ m2 <+: b := by
  intro a
  induction a generalizing m with
  | nil => exact fun h => Or.inr ⟨m, by simp, by simpa using h⟩
  | cons x a' ih =>
    intro h
    match m with
    | [] => exact Or.inl List.nil_prefix
    | y :: m' =>
      rw [List.cons_append, List.cons_prefix_cons] at h
      obtain ⟨rfl, h2⟩ := h
      rcases ih h2 with h3 | ⟨m2, rfl, h4⟩
      · exact Or.inl (by rw [List.cons_prefix_cons]; exact ⟨rfl, h3⟩)
      · exact Or.inr ⟨m2, by simp, h4⟩

theorem infix_cons_split {m : PyStr} {x : Char} {l : PyStr} (h : m <:+: x :: l) :
    m <+: x :: l ∨ m <:+: l := by
  obtain ⟨s, t, hst⟩ := h
  match s with
  | [] => exact Or.inl ⟨t, by simpa using hst⟩
  | y :: s' =>
    rw [List.cons_append] at hst
    injection hst with h1 h2
    exact Or.inr ⟨s', t, h2⟩

theorem infix_append_split {m b : PyStr} : ∀ {a : PyStr}, m <:+: a ++ b →
    m <:+: a ∨ m <:+: b ∨
      ∃ m1 m2, m = m1 ++ m2 ∧ m1 ≠ [] ∧ m2 ≠ [] ∧ m1 <:+ a ∧ m2 <+: b := by
  intro a
  induction a generalizing m with
  | nil => exact fun h => Or.inr (Or.inl (by simpa using h))
  | cons x a' ih =>
    intro h
    rw [List.cons_append] at h
    rcases infix_cons_split h with hp | hi
    · rw [← List.cons_append] at hp
      rcases prefix_append_split hp with h1 | ⟨m2, rfl, h2⟩
      · exact Or.inl (sub_of_pref h1)
      · by_cases hm2 : m2 = []
        · subst hm2
          exact Or.inl ⟨[], [], by simp⟩
        · exact Or.inr (Or.inr ⟨x :: a', m2, rfl, by simp, hm2, List.suffix_refl _, h2⟩)
    · rcases ih hi with h1 | h2 | ⟨m1, m2, hm, hne1, hne2, hsuf, hpre⟩
      · obtain ⟨s, t, hst⟩ := h1
        exact Or.inl ⟨x :: s, t, by simp [hst]⟩
      · exact Or.inr (Or.inl h2)
      · obtain ⟨s, hs⟩ := hsuf
        exact Or.inr (Or.inr ⟨m1, m2, hm, hne1, hne2, ⟨x :: s, by simp [hs]⟩, hpre⟩)

/-- An occurrence inside `a ++ b`, when `b` opens with a character the
substring never contains, lies wholly inside `a` or wholly inside `b`. -/
theorem infix_append_of_head {m a b : PyStr} (hdot : ∀ x ∈ m, b.head? ≠ some x)
    (h : m <:+: a ++ b) : m <:+: a ∨ m <:+: b := by
  rcases infix_append_split h with h1 | h2 | ⟨m1, m2, rfl, hne1, hne2, _, hpre⟩
  · exact Or.inl h1
  · exact Or.inr h2
  · obtain ⟨y, m2', rfl⟩ := List.exists_cons_of_ne_nil hne2
    obtain ⟨t, ht⟩ := hpre
    have hhead : b.head? = some y := by rw [← ht]; rfl
    exact absurd hhead (hdot y (by simp))

/-! ### The marker substring versus the derived filenames -/

theorem marker_in_temp_filename (f : PyStr) : marker <:+: temp_filename f :=
  ⟨(splitext f).1, (splitext f).2, by simp [temp_filename]⟩

theorem temp_filename_ne_nil (f : PyStr) : temp_filename f ≠ [] := by
  unfold temp_filename
  intro h
  rw [List.append_eq_nil, List.append_eq_nil] at h
  exact absurd h.1.2 (by decide)

theorem remote_copy_name_ne_nil (f : PyStr) : remote_copy_name f ≠ [] := by
  unfold remote_copy_name
  intro h
  rw [List.append_eq_nil, List.append_eq_nil] at h
  exact absurd h.1.2 (by decide)

theorem slash_not_mem_temp_filename {f : PyStr} (hf : '/' ∉ f) :
    '/' ∉ temp_filename f := by
  intro h
  unfold temp_filename at h
  rcases List.mem_append.mp h with h1 | h4
  · rcases List.mem_append.mp h1 with h2 | h3
    · exact hf (by rw [← splitext_fst_append_snd f]; exact List.mem_append_left _ h2)
    · exact absurd h3 (by decide)
  · exact hf (by rw [← splitext_fst_append_snd f]; exact List.mem_append_right _ h4)

theorem slash_not_mem_remote_copy_name {f : PyStr} (hf : '/' ∉ f) :
    '/' ∉ remote_copy_name f := by
  intro h
  unfold remote_copy_name at h
  rcases List.mem_append.mp h with h1 | h4
  · rcases List.mem_append.mp h1 with h2 | h3
    · exact hf (by rw [← splitext_fst_append_snd f]; exact List.mem_append_left _ h2)
    · exact absurd h3 (by decide)
  · exact hf (by rw [← splitext_fst_append_snd f]; exact List.mem_append_right _ h4)

/-- No nonempty prefix of `"_remote"` is a suffix of the marker (the marker
ends in a character `"_remote"` does not contain). -/
theorem no_straddle_remote :
    ∀ k : Fin 8, k.val = 0 ∨ ¬ ((strL "_remote").take k.val <:+ marker) := by
  decide

/-- A filename free of the marker substring stays free of it after the
`_remote` copy suffix is inserted before the extension. -/
theorem marker_not_in_copy {f : PyStr} (hf : ¬ marker <:+: f) :
    ¬ marker <:+: remote_copy_name f := by
  intro h
  unfold remote_copy_name at h
  have h' : marker <:+: ((splitext f).1 ++ strL "_remote") ++ (splitext f).2 := h
  have hdot : ∀ x ∈ marker, ((splitext f).2).head? ≠ some x := by
    intro x hx hhead
    rcases splitext_snd_head f with hnil | hdot
    · rw [hnil] at hhead; simp at hhead
    · rw [hdot] at hhead
      injection hhead with hhead
      rw [← hhead] at hx
      exact absurd hx (by decide)
  rcases infix_append_of_head hdot h' with h1 | h2
  · rcases infix_append_split h1 with ha | hb | ⟨m1, m2, hm, hne1, hne2, _, hpre⟩
    · exact hf (ha.trans (sub_of_pref ⟨(splitext f).2, splitext_fst_append_snd f⟩))
    · exact absurd hb.length_le (by decide)
    · have hs : m2 <:+ marker := ⟨m1, hm.symm⟩
      obtain ⟨t, ht⟩ := hpre
      have hlen : m2.length ≤ 7 := by
        have hc := congrArg List.length ht
        have h7 : (strL "_remote").length = 7 := by decide
        rw [h7] at hc
        simp at hc
        omega
      have htake : (strL "_remote").take m2.length = m2 := by
        rw [← ht, List.take_left]
      rcases no_straddle_remote ⟨m2.length, by omega⟩ with h0 | hns
      · exact hne2 (List.length_eq_zero.mp h0)
      · rw [htake] at hns
        exact hns hs
  · exact hf (h2.trans (sub_of_suff ⟨(splitext f).1, splitext_fst_append_snd f⟩))

/-- The `_remote_temp` artifact name and the `_remote` copy name for the same
filename never coincide (their lengths differ). -/
theorem temp_filename_ne_copy_name (f : PyStr) :
    temp_filename f ≠ remote_copy_name f := by
  intro h
  have hl := congrArg List.length h
  have h12 : marker.length = 12 := by decide
  have h7 : (strL "_remote").length = 7 := by decide
  simp only [temp_filename, remote_copy_name, List.length_append, h12, h7] at hl
  omega

theorem temp_filename_head_eq_copy_name_head (f : PyStr) :
    (temp_filename f).head? = (remote_copy_name f).head? := by
  unfold temp_filename remote_copy_name
  cases h : (splitext f).1 with
  | nil => rfl
  | cons c n' => rfl

/-- `pyJoin` with a fixed directory is injective on final components that
open alike (all four join branches align). -/
theorem pyJoin_ne_of_head_eq {x y : PyStr} (d : PyStr)
    (hhead : x.head? = y.head?) (hne : x ≠ y) : pyJoin d x ≠ pyJoin d y := by
  unfold pyJoin
  rw [← hhead]
  split_ifs with h1 h2 h3
  · exact hne
  · exact hne
  · intro h
    exact hne (List.append_cancel_left h)
  · intro h
    have h' := List.append_cancel_left h
    injection h' with _ h''
    exact hne h''

/-! ### Branch lemmas for `resolve_conflict` -/

theorem resolve_conflict_upload_eq {cs : List PyStr}
    (hpick : pickDecision cs = some .upload) (fs : FS) (ov : List PyStr)
    (lp f : PyStr) (dl : Option Bytes) :
    resolve_conflict fs ov lp f dl cs =
      some (if dl.isSome then
              fsRemove (match dl with
                | some content => fsWrite fs (temp_path lp f) content
                | none => fs) (temp_path lp f)
            else (match dl with
                | some content => fsWrite fs (temp_path lp f) content
                | none => fs),
            f :: ov, .upload) := by
  simp only [resolve_conflict, hpick]

theorem resolve_conflict_download_eq {cs : List PyStr}
    (hpick : pickDecision cs = some .download) (fs : FS) (ov : List PyStr)
    (lp f : PyStr) (c : Bytes) :
    resolve_conflict fs ov lp f (some c) cs =
      some (fsRename (fsWrite fs (temp_path lp f) c) (temp_path lp f) lp, ov, .download) := by
  simp only [resolve_conflict, hpick, Option.isSome_some, if_true]

theorem resolve_conflict_cancel_eq {cs : List PyStr}
    (hpick : pickDecision cs = some .cancel) (fs : FS) (ov : List PyStr)
    (lp f : PyStr) (c : Bytes) :
    resolve_conflict fs ov lp f (some c) cs =
      some (fsRemove (fsWrite fs (temp_path lp f) c) (temp_path lp f), ov, .cancel) := by
  simp only [resolve_conflict, hpick, Option.isSome_some, if_true]

theorem resolve_conflict_copy_eq {cs : List PyStr}
    (hpick : pickDecision cs = some .copy) (fs : FS) (ov : List PyStr)
    (lp f : PyStr) (c : Bytes) :
    resolve_conflict fs ov lp f (some c) cs =
      some (fsRename (fsWrite fs (temp_path lp f) c) (temp_path lp f)
              (remote_copy_path lp f), ov, .copy) := by
  simp only [resolve_conflict, hpick, Option.isSome_some, if_true]

theorem resolve_conflict_none_dl_eq {cs : List PyStr} {d : Decision}
    (hpick : pickDecision cs = some d) (fs : FS) (ov : List PyStr) (lp f : PyStr) :
    resolve_conflict fs ov lp f none cs =
      some (fs, (if d = .upload then f :: ov else ov), d) := by
  cases d <;> simp [resolve_conflict, hpick]

theorem uploadStep_trace_no_probe (exec : LftpCmd → SubprocResult)
    (rp src : PyStr) : ∀ c ∈ (uploadStep exec rp src).2.2, isProbe c = false := by
  intro c hc
  unfold uploadStep at hc
  split_ifs at hc <;> simp at hc <;>
    rcases hc with rfl | rfl <;> rfl

/-! ### Claim C5 -/

/-- Claim C5 counterexample: the claim asserts `files_are_identical(A, A)` is
true for every path A, but the code catches the read failure for a path that
cannot be opened and returns false; on the empty filesystem the comparison of
"a.txt" with itself is false, and no byte sequences differ there. -/
theorem c5_counterexample :
    files_are_identical (fun _ => none) (strL "a.txt") (strL "a.txt") = false := rfl

/-- Claim C5 (amended): restricted to paths the comparison can read,
`files_are_identical` is reflexive, and for two readable paths it returns
false iff the byte sequences differ at some offset.  (As stated the claim
fails for an unreadable path, where the `except` branch returns false.) -/
theorem c5_files_are_identical (fs : FS) (a b : PyStr) (xa xb : Bytes)
    (ha : fs a = some xa) (hb : fs b = some xb) :
    files_are_identical fs a a = true ∧
      (files_are_identical fs a b = false ↔ ∃ i, xa.get? i ≠ xb.get? i) := by
  constructor
  · unfold files_are_identical
    rw [ha]
    simp
  · unfold files_are_identical
    rw [ha, hb]
    rw [beq_eq_false_iff_ne, ne_eq]
    constructor
    · intro hne
      by_contra hc
      push_neg at hc
      exact hne (List.ext_get?_iff.mpr hc)
    · rintro ⟨i, hi⟩ heq
      exact hi (by rw [heq])

/-- Claim C5 witness: the amended theorem applied at a concrete filesystem
holding `[1, 2]` at "a" and `[1, 3]` at "b". -/
theorem c5_witness :
    files_are_identical
        (fun p => if p = strL "a" then some [1, 2]
                  else if p = strL "b" then some [1, 3] else none)
        (strL "a") (strL "a") = true ∧
      (files_are_identical
          (fun p => if p = strL "a" then some [1, 2]
                    else if p = strL "b" then some [1, 3] else none)
          (strL "a") (strL "b") = false ↔
        ∃ i, ([1, 2] : Bytes).get? i ≠ ([1, 3] : Bytes).get? i) :=
  ⟨(c5_files_are_identical _ (strL "a") (strL "a") [1, 2] [1, 2] rfl rfl).1,
   (c5_files_are_identical _ (strL "a") (strL "b") [1, 2] [1, 3] rfl rfl).2⟩

/-! ### Claim C6 -/

/-- Claim C6: `remote_file_exists` returns true iff the listing subprocess
exits zero and some line of its (stripped) captured stdout contains the
filename as a substring; any non-zero exit yields false rather than an
exception. -/
theorem c6_remote_file_exists (r : SubprocResult) (filename : PyStr) :
    (remote_file_exists r filename = true ↔
      r.returncode = 0 ∧ ∃ line ∈ pySplit '\n' (pyStrip r.stdout), filename <:+: line) ∧
    (r.returncode ≠ 0 → remote_file_exists r filename = false) := by
  constructor
  · unfold remote_file_exists
    by_cases h : r.returncode = 0
    · rw [if_pos (by simp [h])]
      rw [List.any_eq_true]
      constructor
      · rintro ⟨line, hl, hc⟩
        exact ⟨h, line, hl, (containsBool_iff line filename).mp hc⟩
      · rintro ⟨_, line, hl, hc⟩
        exact ⟨line, hl, (containsBool_iff line filename).mpr hc⟩
    · rw [if_neg (by simp [h])]
      simp [h]
  · intro h
    unfold remote_file_exists
    rw [if_neg (by simp [h])]

/-- Claim C6 witness: a zero-exit listing whose stripped stdout has a line
containing "a.txt" is reported as existing. -/
theorem c6_witness :
    remote_file_exists ⟨0, strL "  x a.txt y\nz\n", []⟩ (strL "a.txt") = true :=
  (c6_remote_file_exists ⟨0, strL "  x a.txt y\nz\n", []⟩ (strL "a.txt")).1.mpr
    ⟨rfl, strL "x a.txt y", by decide, by decide⟩

/-! ### Claim C3 -/

/-- Claim C3: in the upload step, a zero first exit means a single `put` and
reported success; a non-zero first exit means exactly one retry — the
directory-creation script followed by the same transfer — so exactly two
subprocess invocations; the outcome is success iff either attempt exits
zero, and a non-zero retry is reported as failure with the retry's stderr
and no further invocations. -/
theorem c3_uploadStep (exec : LftpCmd → SubprocResult) (rp src : PyStr) :
    ((exec (.put rp src)).returncode = 0 →
      uploadStep exec rp src = (true, none, [.put rp src])) ∧
    ((exec (.put rp src)).returncode ≠ 0 →
      (uploadStep exec rp src).2.2 = [.put rp src, .mkdirPut rp src] ∧
      ((uploadStep exec rp src).1 = true ↔ (exec (.mkdirPut rp src)).returncode = 0) ∧
      ((exec (.mkdirPut rp src)).returncode ≠ 0 →
        uploadStep exec rp src =
          (false, some (exec (.mkdirPut rp src)).stderr,
            [.put rp src, .mkdirPut rp src]))) := by
  constructor
  · intro h
    unfold uploadStep
    rw [if_neg (not_not_intro h)]
  · intro h
    unfold uploadStep
    rw [if_pos h]
    by_cases h2 : (exec (.mkdirPut rp src)).returncode = 0
    · rw [if_pos (by simp [h2])]
      exact ⟨rfl, by simp [h2], fun hc => absurd h2 hc⟩
    · rw [if_neg (by simp [h2])]
      refine ⟨rfl, ?_, fun _ => rfl⟩
      simp [h2]

/-- Claim C3 witness: the theorem applied to an environment where the direct
`put` exits 1 and the mkdir retry exits 0 — reported success after exactly
the two invocations. -/
theorem c3_witness :
    (uploadStep
        (fun c => match c with
          | .put _ _ => ⟨1, [], strL "err1"⟩
          | _ => ⟨0, [], []⟩)
        (strL "/r") (strL "/l/a.txt")).2.2 =
      [.put (strL "/r") (strL "/l/a.txt"), .mkdirPut (strL "/r") (strL "/l/a.txt")] ∧
    (uploadStep
        (fun c => match c with
          | .put _ _ => ⟨1, [], strL "err1"⟩
          | _ => ⟨0, [], []⟩)
        (strL "/r") (strL "/l/a.txt")).1 = true := by
  have h := (c3_uploadStep
    (fun c => match c with
      | .put _ _ => ⟨1, [], strL "err1"⟩
      | _ => ⟨0, [], []⟩)
    (strL "/r") (strL "/l/a.txt")).2 (by decide)
  exact ⟨h.1, h.2.1.mpr (by decide)⟩

/-! ### Claim C8 -/

/-- What one (stripped, nonempty) ignore pattern can match, read off the
loop body: the trailing-slash directory-prefix test, the two shell-glob
tests, and the absolute-path prefix test. -/
def patternHit (pat rel_u filename abs_path : PyStr) : Prop :=
  (pat.getLast? = some '/' ∧
    (rel_u = rstripChar '/' pat ∨ (rstripChar '/' pat ++ ['/']) <+: rel_u)) ∨
  fnmatch rel_u pat = true ∨ fnmatch filename pat = true ∨
  (py_isabs pat = true ∧ pat <+: abs_path)

theorem patCheck_iff (pat0 rel_u fn abs : PyStr) :
    patCheck pat0 rel_u fn abs = true ↔
      pat0 ≠ [] ∧ patternHit (pyStrip pat0) rel_u fn abs := by
  unfold patCheck patternHit
  by_cases he : pat0.isEmpty
  · rw [if_pos he]
    simp [List.isEmpty_iff.mp he]
  · rw [if_neg he]
    have hne : pat0 ≠ [] := fun h => he (by simp [h])
    simp only [hne, ne_eq, not_false_eq_true, true_and]
    by_cases hl : (pyStrip pat0).getLast? = some '/'
    · rw [if_pos (by simp [hl])]
      simp [Bool.or_eq_true, Bool.and_eq_true, beq_iff_eq, isPrefBool_iff, hl,
        or_assoc]
    · rw [if_neg (by simp [hl])]
      simp [Bool.or_eq_true, Bool.and_eq_true, beq_iff_eq, isPrefBool_iff, hl,
        or_assoc]

/-- Claim C8 counterexample: with the single configured pattern "/a/"
(a directory-style pattern, since it ends in the separator), the path with
normalised relative path "x", filename "x" and absolute path "/a/x" is
reported as ignored even though the relative path neither equals "/a" nor
starts with "/a/" — the claimed "exactly when" fails, because an absolute
directory pattern can also match through the absolute-path prefix check. -/
theorem c8_counterexample :
    is_ignored [strL "/a/"] (strL "x") (strL "x") (strL "/a/x") = true ∧
      ¬ (normSep (strL "x") = rstripChar '/' (pyStrip (strL "/a/")) ∨
          (rstripChar '/' (pyStrip (strL "/a/")) ++ ['/']) <+: normSep (strL "x")) := by
  decide

/-- Claim C8 (amended): with no patterns configured `is_ignored` is false;
in general it is true iff some configured nonempty pattern matches after
trimming, where a pattern matches when its trailing-slash directory-prefix
condition holds, or shell-glob matching succeeds against the normalised
relative path or the bare filename, or the pattern is an absolute path and
the absolute path starts with it.  The directory-prefix condition is thus
sufficient for directory patterns but not necessary: the glob and
absolute-prefix checks also apply to them. -/
theorem c8_is_ignored (patterns : List PyStr) (rel fn abs : PyStr) :
    is_ignored patterns rel fn abs = true ↔
      ∃ pat ∈ patterns, pat ≠ [] ∧ patternHit (pyStrip pat) (normSep rel) fn abs := by
  unfold is_ignored
  by_cases hp : patterns.isEmpty
  · rw [if_pos hp]
    simp [List.isEmpty_iff.mp hp]
  · rw [if_neg hp]
    rw [List.any_eq_true]
    constructor
    · rintro ⟨pat, hm, hc⟩
      exact ⟨pat, hm, (patCheck_iff pat _ fn abs).mp hc⟩
    · rintro ⟨pat, hm, hc⟩
      exact ⟨pat, hm, (patCheck_iff pat _ fn abs).mpr hc⟩

/-- Claim C8 witness: the characterization applied to the glob pattern
"*.log" matching "a.log". -/
theorem c8_witness :
    is_ignored [strL "*.log"] (strL "a.log") (strL "a.log") (strL "/x/a.log") = true :=
  (c8_is_ignored [strL "*.log"] (strL "a.log") (strL "a.log") (strL "/x/a.log")).mpr
    ⟨strL "*.log", by decide, by decide, by
      unfold patternHit
      exact Or.inr (Or.inl (by decide))⟩

/-! ### Claim C2 -/

/-- Claim C2: whatever decision out of the four terminates a conflict
invocation, no file whose name contains the Comparison Artifact marker
substring remains afterwards: on a filesystem initially free of
marker-named files (with a conflicted file whose own name and path carry no
marker), the filesystem produced by `resolve_conflict` maps every
marker-named path to nothing — the artifact written during the invocation
is unlinked or renamed away on every branch, and both rename destinations
(the local file and the `_remote` copy) are marker-free names. -/
theorem c2_no_marker_file_remains (fs : FS) (ov : List PyStr) (lp f : PyStr)
    (dl : Option Bytes) (cs : List PyStr) (out : FS × List PyStr × Decision)
    (hclean : ∀ q, marker <:+: basename q → fs q = none)
    (hlp : ¬ marker <:+: basename lp)
    (hf : ¬ marker <:+: f)
    (hsl : ('/' : Char) ∉ f)
    (hres : resolve_conflict fs ov lp f dl cs = some out) :
    ∀ q, marker <:+: basename q → out.1 q = none := by
  intro q hq
  have hq_ne_lp : q ≠ lp := fun h => hlp (h ▸ hq)
  have hq_ne_copy : q ≠ remote_copy_path lp f := by
    intro h
    apply marker_not_in_copy hf
    have hb : basename (remote_copy_path lp f) = remote_copy_name f :=
      basename_pyJoin (slash_not_mem_remote_copy_name hsl) (remote_copy_name_ne_nil f) _
    rw [h, hb] at hq
    exact hq
  cases hpick : pickDecision cs with
  | none =>
    rw [resolve_conflict.eq_def, hpick] at hres
    exact absurd hres (by simp)
  | some d =>
    rcases dl with _ | c
    · rw [resolve_conflict_none_dl_eq hpick fs ov lp f] at hres
      injection hres with hres
      rw [← hres]
      exact hclean q hq
    · cases d with
      | upload =>
        rw [resolve_conflict_upload_eq hpick fs ov lp f (some c)] at hres
        injection hres with hres
        rw [← hres]
        simp only [Option.isSome_some, if_true]
        by_cases hqt : q = temp_path lp f
        · subst hqt
          simp [fsRemove]
        · simp only [fsRemove, fsWrite, if_neg hqt]
          exact hclean q hq
      | cancel =>
        rw [resolve_conflict_cancel_eq hpick fs ov lp f c] at hres
        injection hres with hres
        rw [← hres]
        by_cases hqt : q = temp_path lp f
        · subst hqt
          simp [fsRemove]
        · simp only [fsRemove, fsWrite, if_neg hqt]
          exact hclean q hq
      | download =>
        rw [resolve_conflict_download_eq hpick fs ov lp f c] at hres
        injection hres with hres
        rw [← hres]
        simp only [fsRename, fsWrite, if_neg hq_ne_lp]
        by_cases hqt : q = temp_path lp f
        · simp [if_pos hqt]
        · simp only [if_neg hqt]
          exact hclean q hq
      | copy =>
        rw [resolve_conflict_copy_eq hpick fs ov lp f c] at hres
        injection hres with hres
        rw [← hres]
        simp only [fsRename, fsWrite, if_neg hq_ne_copy]
        by_cases hqt : q = temp_path lp f
        · simp [if_pos hqt]
        · simp only [if_neg hqt]
          exact hclean q hq

/-- Claim C2 witness: the invariant applied to the empty filesystem, a
Cancel decision, and the concrete marker-named path
"/l/a_remote_temp.txt". -/
theorem c2_witness :
    (fsRemove (fsWrite (fun _ => none)
        (temp_path (strL "/l/a.txt") (strL "a.txt")) [1])
        (temp_path (strL "/l/a.txt") (strL "a.txt")))
      (strL "/l/a_remote_temp.txt") = none :=
  c2_no_marker_file_remains (fun _ => none) [] (strL "/l/a.txt") (strL "a.txt")
    (some [1]) [strL "3"]
    (fsRemove (fsWrite (fun _ => none)
        (temp_path (strL "/l/a.txt") (strL "a.txt")) [1])
        (temp_path (strL "/l/a.txt") (strL "a.txt")), [], .cancel)
    (fun _ _ => rfl) (by decide) (by decide) (by decide) rfl
    (strL "/l/a_remote_temp.txt") (by decide)

/-! ### Claim C7 -/

/-- Claim C7: the Comparison Artifact is created in the local file's
directory under a name with the `_remote_temp` marker inserted between stem
and extension — so the marker is a substring of the artifact's filename and
of the basename of its full path — and the orchestrator discards any change
event whose filename contains the marker before any processing (unchanged
state, no subprocess calls), so the artifact's own creation events are
self-ignored. -/
theorem c7_artifact_self_ignored (lp f : PyStr) (ld rd : PyStr)
    (pats : List PyStr) (cc : Bool) (st : HandlerState) (src : PyStr)
    (env : SyncEnv)
    (hsl : ('/' : Char) ∉ f)
    (hmc : marker_check src = true) :
    marker <:+: temp_filename f ∧
    basename (temp_path lp f) = temp_filename f ∧
    marker_check (temp_path lp f) = true ∧
    on_modified ld rd pats cc st src false env = some (st, [], .skipped .tempFile) := by
  have hb : basename (temp_path lp f) = temp_filename f :=
    basename_pyJoin (slash_not_mem_temp_filename hsl) (temp_filename_ne_nil f) _
  refine ⟨marker_in_temp_filename f, hb, ?_, ?_⟩
  · unfold marker_check
    rw [hb]
    exact (containsBool_iff _ _).mpr (marker_in_temp_filename f)
  · unfold on_modified
    rw [if_neg (by simp), if_pos hmc]

/-- Claim C7 witness: the theorem applied at "/l/a.txt", whose artifact path
"/l/a_remote_temp.txt" is itself discarded by the handler. -/
theorem c7_witness :
    marker <:+: temp_filename (strL "a.txt") ∧
    basename (temp_path (strL "/l/a.txt") (strL "a.txt")) =
      temp_filename (strL "a.txt") ∧
    marker_check (temp_path (strL "/l/a.txt") (strL "a.txt")) = true ∧
    on_modified (strL "/l") (strL "/r") [] true ⟨fun _ => none, []⟩
        (temp_path (strL "/l/a.txt") (strL "a.txt")) false
        ⟨fun _ => ⟨0, [], []⟩, none, none, []⟩ =
      some (⟨fun _ => none, []⟩, [], .skipped .tempFile) :=
  c7_artifact_self_ignored (strL "/l/a.txt") (strL "a.txt") (strL "/l")
    (strL "/r") [] true ⟨fun _ => none, []⟩
    (temp_path (strL "/l/a.txt") (strL "a.txt"))
    ⟨fun _ => ⟨0, [], []⟩, none, none, []⟩ (by decide) (by decide)

/-! ### Claim C10 -/

/-- Claim C10: for a conflicted filename free of the `_remote_temp` marker,
the Save-Remote-Copy name (stem ++ "_remote" ++ extension) is also
marker-free, so a change event for the saved copy passes the orchestrator's
line-266 marker filter (`marker_check` is false on the copy's path) and is
not discarded as self-noise: the copy can itself be picked up for
synchronization. -/
theorem c10_saved_copy_not_filtered (f d : PyStr) (ld rd : PyStr)
    (pats : List PyStr) (cc : Bool) (st : HandlerState) (env : SyncEnv)
    (hf : ¬ marker <:+: f)
    (hsl : ('/' : Char) ∉ f) :
    ¬ marker <:+: remote_copy_name f ∧
    marker_check (pyJoin d (remote_copy_name f)) = false ∧
    (on_modified ld rd pats cc st (pyJoin d (remote_copy_name f)) false env).map
        (fun r => r.2.2) ≠ some (HandlerResult.skipped StopReason.tempFile) := by
  have h1 : ¬ marker <:+: remote_copy_name f := marker_not_in_copy hf
  have h2 : marker_check (pyJoin d (remote_copy_name f)) = false := by
    unfold marker_check
    rw [basename_pyJoin (slash_not_mem_remote_copy_name hsl)
      (remote_copy_name_ne_nil f) d]
    cases hcb : containsBool (remote_copy_name f) marker
    · rfl
    · exact absurd ((containsBool_iff _ _).mp hcb) h1
  refine ⟨h1, h2, ?_⟩
  unfold on_modified
  rw [if_neg (by simp), h2]
  rw [if_neg (by simp)]
  simp only
  intro hcontra
  repeat' split at hcontra
  all_goals simp_all

/-- Claim C10 witness: the theorem applied to the copy of "a.txt" saved in
"/l" — its path "/l/a_remote.txt" passes the marker filter. -/
theorem c10_witness :
    ¬ marker <:+: remote_copy_name (strL "a.txt") ∧
    marker_check (pyJoin (strL "/l") (remote_copy_name (strL "a.txt"))) = false ∧
    (on_modified (strL "/l") (strL "/r") [] false ⟨fun _ => none, []⟩
        (pyJoin (strL "/l") (remote_copy_name (strL "a.txt"))) false
        ⟨fun _ => ⟨0, [], []⟩, none, none, []⟩).map (fun r => r.2.2) ≠
      some (HandlerResult.skipped StopReason.tempFile) :=
  c10_saved_copy_not_filtered (strL "a.txt") (strL "/l") (strL "/l") (strL "/r")
    [] false ⟨fun _ => none, []⟩ ⟨fun _ => ⟨0, [], []⟩, none, none, []⟩
    (by decide) (by decide)

/-! ### Claim C1 -/

/-- Claim C1: in a conflict invocation whose fetch produced a Comparison
Artifact (`fetch2 = some c2`), choosing Adopt-Remote replaces the local
file's bytes with exactly the artifact's bytes through the single
`os.replace` rename (modelled as the atomic `fsRename` step, so a failed
replace cannot leave a half-written local file), leaves nothing at the
artifact's path, and makes the handler stop without issuing any transfer
command. -/
theorem c1_adopt_remote (ld rd : PyStr) (pats : List PyStr) (st : HandlerState)
    (src : PyStr) (env : SyncEnv) (c1 c2 : Bytes)
    (hmark : marker_check src = false)
    (hign : is_ignored pats (rel_path_of ld src) (basename src) src = false)
    (hov : basename src ∉ st.overrides)
    (hex : remote_file_exists (env.exec (.ls (remote_path_of rd (rel_path_of ld src))))
        (basename src) = true)
    (hf1 : env.fetch1 = some c1)
    (hid : files_are_identical (fsWrite st.fs (temp_path src (basename src)) c1) src
        (temp_path src (basename src)) = false)
    (hf2 : env.fetch2 = some c2)
    (hpick : pickDecision env.choices = some .download) :
    ((on_modified ld rd pats true st src false env).map fun r => r.2.2) =
        some (HandlerResult.skipped .downloaded) ∧
    ((on_modified ld rd pats true st src false env).map fun r => r.1.fs src) =
        some (some c2) ∧
    ((on_modified ld rd pats true st src false env).map fun r =>
        r.1.fs (temp_path src (basename src))) = some none ∧
    ((on_modified ld rd pats true st src false env).map fun r =>
        (r.2.1).all fun cmd => !(isTransfer cmd)) = some true := by
  have hnm : ¬ marker <:+: basename src := by
    intro hm
    have hcb := (containsBool_iff (basename src) marker).mpr hm
    unfold marker_check at hmark
    rw [hcb] at hmark
    exact absurd hmark (by simp)
  have hne : temp_path src (basename src) ≠ src := by
    intro h
    apply hnm
    have hb : basename (temp_path src (basename src)) = temp_filename (basename src) :=
      basename_pyJoin (slash_not_mem_temp_filename (slash_not_mem_basename src))
        (temp_filename_ne_nil _) _
    rw [← h, hb]
    exact marker_in_temp_filename _
  have hres : on_modified ld rd pats true st src false env =
      some (⟨fsRename
              (fsWrite (fsRemove (fsWrite st.fs (temp_path src (basename src)) c1)
                  (temp_path src (basename src)))
                (temp_path src (basename src)) c2)
              (temp_path src (basename src)) src,
            st.overrides⟩,
            [LftpCmd.ls (remote_path_of rd (rel_path_of ld src)),
             LftpCmd.get (remote_path_of rd (rel_path_of ld src)) (basename src)
               (temp_path src (basename src)),
             LftpCmd.get (remote_path_of rd (rel_path_of ld src)) (basename src)
               (temp_path src (basename src))],
            .skipped .downloaded) := by
    unfold on_modified
    rw [if_neg (by simp), hmark]
    rw [if_neg (by simp)]
    simp only [hign, Bool.false_eq_true, if_false]
    rw [if_pos trivial, if_neg hov]
    simp only [hex, if_true, hf1, hf2, hid, Bool.false_eq_true, if_false]
    rw [resolve_conflict_download_eq hpick]
    rfl
  refine ⟨?_, ?_, ?_, ?_⟩
  · rw [hres]
    rfl
  · rw [hres]
    simp [fsRename, fsWrite]
  · rw [hres]
    simp [fsRename, if_neg hne]
  · rw [hres]
    simp [isTransfer]

/-- Claim C1 witness: the theorem applied to a concrete session — local file
"/l/a.txt" holding `[1]`, remote artifact bytes `[2]`, operator choice
"2" — yielding the stop-without-upload outcome with the local file holding
`[2]` and the artifact gone. -/
theorem c1_witness :
    ((on_modified (strL "/l") (strL "/r") [] true
        ⟨fun p => if p = strL "/l/a.txt" then some [1] else none, []⟩
        (strL "/l/a.txt") false
        ⟨fun c => match c with
          | .ls _ => ⟨0, strL " a.txt ", []⟩
          | _ => ⟨0, [], []⟩, some [2], some [2], [strL "2"]⟩).map fun r => r.2.2) =
      some (HandlerResult.skipped .downloaded) ∧
    ((on_modified (strL "/l") (strL "/r") [] true
        ⟨fun p => if p = strL "/l/a.txt" then some [1] else none, []⟩
        (strL "/l/a.txt") false
        ⟨fun c => match c with
          | .ls _ => ⟨0, strL " a.txt ", []⟩
          | _ => ⟨0, [], []⟩, some [2], some [2], [strL "2"]⟩).map fun r =>
        r.1.fs (strL "/l/a.txt")) = some (some [2]) :=
  have h := c1_adopt_remote (strL "/l") (strL "/r") []
    ⟨fun p => if p = strL "/l/a.txt" then some [1] else none, []⟩
    (strL "/l/a.txt")
    ⟨fun c => match c with
      | .ls _ => ⟨0, strL " a.txt ", []⟩
      | _ => ⟨0, [], []⟩, some [2], some [2], [strL "2"]⟩
    [2] [2] (by decide) (by decide) (by decide) (by decide) rfl (by decide) rfl
    (by decide)
  ⟨h.1, h.2.1⟩

/-! ### Claim C9 -/

/-- Claim C9 counterexample: for the conflicted filename "a.txt" the code's
Save-Remote-Copy name is "a_remote.txt" — an underscore suffix — not the
"-remote" (hyphen) suffix the claim words it as. -/
theorem c9_counterexample :
    remote_copy_name (strL "a.txt") = strL "a_remote.txt" ∧
      remote_copy_name (strL "a.txt") ≠ copy_name_hyphen_spec (strL "a.txt") := by
  decide

theorem uploadStep_has_transfer (exec : LftpCmd → SubprocResult)
    (rp src : PyStr) : ((uploadStep exec rp src).2.2).any isTransfer = true := by
  unfold uploadStep
  split_ifs <;> simp [isTransfer]

/-- Claim C9 (amended): the Save-Remote-Copy decision renames the Comparison
Artifact, in the same local directory, to the name derived from the
conflicted filename with the "_remote" (underscore) suffix inserted before
the extension, and signals the caller to proceed with the upload of the
local file: the handler result is an upload outcome, a transfer command is
issued, the copy path holds the artifact's bytes and the artifact path is
empty. -/
theorem c9_save_remote_copy (ld rd : PyStr) (pats : List PyStr) (st : HandlerState)
    (src : PyStr) (env : SyncEnv) (c1 c2 : Bytes)
    (hmark : marker_check src = false)
    (hign : is_ignored pats (rel_path_of ld src) (basename src) src = false)
    (hov : basename src ∉ st.overrides)
    (hex : remote_file_exists (env.exec (.ls (remote_path_of rd (rel_path_of ld src))))
        (basename src) = true)
    (hf1 : env.fetch1 = some c1)
    (hid : files_are_identical (fsWrite st.fs (temp_path src (basename src)) c1) src
        (temp_path src (basename src)) = false)
    (hf2 : env.fetch2 = some c2)
    (hpick : pickDecision env.choices = some .copy) :
    ((on_modified ld rd pats true st src false env).map fun r =>
        isUploadResult r.2.2) = some true ∧
    ((on_modified ld rd pats true st src false env).map fun r =>
        r.1.fs (remote_copy_path src (basename src))) = some (some c2) ∧
    ((on_modified ld rd pats true st src false env).map fun r =>
        r.1.fs (temp_path src (basename src))) = some none ∧
    ((on_modified ld rd pats true st src false env).map fun r =>
        (r.2.1).any isTransfer) = some true := by
  have hne : temp_path src (basename src) ≠ remote_copy_path src (basename src) :=
    pyJoin_ne_of_head_eq (dirname src)
      (temp_filename_head_eq_copy_name_head (basename src))
      (temp_filename_ne_copy_name (basename src))
  have hres : on_modified ld rd pats true st src false env =
      some (⟨fsRename
              (fsWrite (fsRemove (fsWrite st.fs (temp_path src (basename src)) c1)
                  (temp_path src (basename src)))
                (temp_path src (basename src)) c2)
              (temp_path src (basename src)) (remote_copy_path src (basename src)),
            st.overrides⟩,
            [LftpCmd.ls (remote_path_of rd (rel_path_of ld src)),
             LftpCmd.get (remote_path_of rd (rel_path_of ld src)) (basename src)
               (temp_path src (basename src)),
             LftpCmd.get (remote_path_of rd (rel_path_of ld src)) (basename src)
               (temp_path src (basename src))] ++
              (uploadStep env.exec (remote_path_of rd (rel_path_of ld src)) src).2.2,
            .uploaded
              (uploadStep env.exec (remote_path_of rd (rel_path_of ld src)) src).1
              (uploadStep env.exec (remote_path_of rd (rel_path_of ld src)) src).2.1) := by
    unfold on_modified
    rw [if_neg (by simp), hmark]
    rw [if_neg (by simp)]
    simp only [hign, Bool.false_eq_true, if_false]
    rw [if_pos trivial, if_neg hov]
    simp only [hex, if_true, hf1, hf2, hid, Bool.false_eq_true, if_false]
    rw [resolve_conflict_copy_eq hpick]
    rfl
  refine ⟨?_, ?_, ?_, ?_⟩
  · rw [hres]
    rfl
  · rw [hres]
    simp [fsRename, fsWrite]
  · rw [hres]
    simp [fsRename, if_neg hne]
  · rw [hres]
    simp [List.any_append, uploadStep_has_transfer]

/-- Claim C9 witness: the amended theorem applied to a concrete session with
operator choice "4": the copy "/l/a_remote.txt" holds the remote bytes and
the upload of "/l/a.txt" proceeds. -/
theorem c9_witness :
    ((on_modified (strL "/l") (strL "/r") [] true
        ⟨fun p => if p = strL "/l/a.txt" then some [1] else none, []⟩
        (strL "/l/a.txt") false
        ⟨fun c => match c with
          | .ls _ => ⟨0, strL " a.txt ", []⟩
          | _ => ⟨0, [], []⟩, some [2], some [2], [strL "4"]⟩).map fun r =>
        isUploadResult r.2.2) = some true ∧
    ((on_modified (strL "/l") (strL "/r") [] true
        ⟨fun p => if p = strL "/l/a.txt" then some [1] else none, []⟩
        (strL "/l/a.txt") false
        ⟨fun c => match c with
          | .ls _ => ⟨0, strL " a.txt ", []⟩
          | _ => ⟨0, [], []⟩, some [2], some [2], [strL "4"]⟩).map fun r =>
        r.1.fs (remote_copy_path (strL "/l/a.txt") (basename (strL "/l/a.txt")))) =
      some (some [2]) :=
  have h := c9_save_remote_copy (strL "/l") (strL "/r") []
    ⟨fun p => if p = strL "/l/a.txt" then some [1] else none, []⟩
    (strL "/l/a.txt")
    ⟨fun c => match c with
      | .ls _ => ⟨0, strL " a.txt ", []⟩
      | _ => ⟨0, [], []⟩, some [2], some [2], [strL "4"]⟩
    [2] [2] (by decide) (by decide) (by decide) (by decide) rfl (by decide) rfl
    (by decide)
  ⟨h.1, h.2.1⟩

/-! ### Claim C4 -/

/-- Claim C4: an Upload-Local decision records the filename in the session
overrides (the returned overrides list is the old one with the filename
prepended), and a later change event for a filename already in the session
overrides skips the remote-existence probe, the fetch and the byte
comparison entirely — the handler goes straight to the upload step, its
state is untouched and its subprocess trace contains no probe (`ls`) and no
fetch (`get`) command. -/
theorem c4_session_override (fs : FS) (ov : List PyStr) (lp f : PyStr)
    (dl : Option Bytes) (cs : List PyStr)
    (hpick : pickDecision cs = some .upload)
    (ld rd : PyStr) (pats : List PyStr) (st : HandlerState) (src : PyStr)
    (env : SyncEnv)
    (hmark : marker_check src = false)
    (hign : is_ignored pats (rel_path_of ld src) (basename src) src = false)
    (hov : basename src ∈ st.overrides) :
    ((resolve_conflict fs ov lp f dl cs).map fun out => (out.2.1, out.2.2)) =
        some (f :: ov, Decision.upload) ∧
    on_modified ld rd pats true st src false env =
        some (⟨st.fs, st.overrides⟩,
          (uploadStep env.exec (remote_path_of rd (rel_path_of ld src)) src).2.2,
          .uploaded
            (uploadStep env.exec (remote_path_of rd (rel_path_of ld src)) src).1
            (uploadStep env.exec (remote_path_of rd (rel_path_of ld src)) src).2.1) ∧
    (∀ cmd ∈ (uploadStep env.exec (remote_path_of rd (rel_path_of ld src)) src).2.2,
        isProbe cmd = false) := by
  refine ⟨?_, ?_, uploadStep_trace_no_probe _ _ _⟩
  · rcases dl with _ | c
    · rw [resolve_conflict_none_dl_eq hpick]
      simp
    · rw [resolve_conflict_upload_eq hpick]
      rfl
  · unfold on_modified
    rw [if_neg (by simp), hmark]
    rw [if_neg (by simp)]
    simp only [hign, Bool.false_eq_true, if_false]
    rw [if_pos trivial, if_pos hov]
    simp

/-- Claim C4 witness: the theorem applied with "a.txt" already in the
session overrides — the handler's trace is the upload trace alone. -/
theorem c4_witness :
    ((resolve_conflict (fun _ => none) [] (strL "/l/a.txt") (strL "a.txt")
        (some [1]) [strL "1"]).map fun out => (out.2.1, out.2.2)) =
      some ([strL "a.txt"], Decision.upload) ∧
    on_modified (strL "/l") (strL "/r") [] true
        ⟨fun _ => none, [strL "a.txt"]⟩ (strL "/l/a.txt") false
        ⟨fun _ => ⟨0, [], []⟩, none, none, []⟩ =
      some (⟨fun _ => none, [strL "a.txt"]⟩,
        (uploadStep (fun _ => ⟨0, [], []⟩)
          (remote_path_of (strL "/r") (rel_path_of (strL "/l") (strL "/l/a.txt")))
          (strL "/l/a.txt")).2.2,
        .uploaded
          (uploadStep (fun _ => ⟨0, [], []⟩)
            (remote_path_of (strL "/r") (rel_path_of (strL "/l") (strL "/l/a.txt")))
            (strL "/l/a.txt")).1
          (uploadStep (fun _ => ⟨0, [], []⟩)
            (remote_path_of (strL "/r") (rel_path_of (strL "/l") (strL "/l/a.txt")))
            (strL "/l/a.txt")).2.1) :=
  have h := c4_session_override (fun _ => none) [] (strL "/l/a.txt") (strL "a.txt")
    (some [1]) [strL "1"] (by decide) (strL "/l") (strL "/r") []
    ⟨fun _ => none, [strL "a.txt"]⟩ (strL "/l/a.txt")
    ⟨fun _ => ⟨0, [], []⟩, none, none, []⟩
    (by decide) (by decide) (by decide)
  ⟨h.1, h.2.1⟩

end Sync
